import Mathlib

/-!
Verification of the glance-board data-freshness and caching engine.

The definitions below are a shallow embedding of `server.js` (the calendar
cache and the `fetchAndParseICS` normalization pipeline) and of the
client-side localStorage freshness checks in `AppointmentsList.tsx` /
`WeatherDisplay.tsx`.  Timestamps are modelled as `Int` epoch milliseconds;
local time is modelled with a fixed offset `tz` (milliseconds added to a UTC
instant to obtain local time), so `new Date(y, m, d)` (local midnight of the
day containing an instant) and `getHours`/`getMinutes`/`getSeconds` become
arithmetic on the local millisecond-of-day.
-/

namespace GlanceBoard

def dayMs : Int := 86400000

def hourMs : Int := 3600000

def minuteMs : Int := 60000

def secondMs : Int := 1000

/-- Local millisecond-of-day of instant `t` under fixed offset `tz`. -/
def msOfDay (t tz : Int) : Int := (t + tz).emod dayMs

/-- Models JavaScript `Date.prototype.getHours` (local). -/
def getHours (t tz : Int) : Int := msOfDay t tz / hourMs

/-- Models JavaScript `Date.prototype.getMinutes` (local). -/
def getMinutes (t tz : Int) : Int := (msOfDay t tz % hourMs) / minuteMs

/-- Models JavaScript `Date.prototype.getSeconds` (local). -/
def getSeconds (t tz : Int) : Int := (msOfDay t tz % minuteMs) / secondMs

/-- Models `new Date(nowDate.getFullYear(), nowDate.getMonth(), nowDate.getDate())`
(server.js line 43): local midnight of the local day containing `t`. -/
def startOfToday (t tz : Int) : Int := t - msOfDay t tz

/-- The `start`/`end` values node-ical hands to the loop in server.js lines
47-81: either a JavaScript `Date` instance (possibly carrying node-ical's
`dateOnly` marker property) or a non-`Date` value that `new Date(x)` parses
to the instant `t`.  Only values parseable to a valid instant are modelled. -/
inductive ICalValue where
  | date (t : Int) (dateOnly : Bool)
  | str (t : Int)
deriving DecidableEq, Repr

/-- The epoch-ms instant of a value: `x.getTime()` for a `Date`,
`new Date(x).getTime()` otherwise (server.js lines 60-65). -/
def ICalValue.instant : ICalValue → Int
  | .date t _ => t
  | .str t => t

/-- One entry of the mapping node-ical returns (`data[key]` in server.js).
`start` is taken to be present; `end_` models `event.end` (absent ↦ JS
`undefined`, so `event.end || event.start` falls back to `start`). -/
structure RawEvent where
  type : String
  uid : Option String := none
  summary : Option String := none
  start : ICalValue
  end_ : Option ICalValue := none
  datetype : Option String := none
  location : Option String := none
  description : Option String := none
deriving DecidableEq, Repr

/-- JavaScript `s || d` for an optional string: `undefined` and `""` are
falsy, any other string is truthy. -/
def jsOr (o : Option String) (d : String) : String :=
  match o with
  | none => d
  | some s => if s = "" then d else s

/-- JavaScript `s || undefined` for an optional string. -/
def jsOpt (o : Option String) : Option String :=
  match o with
  | none => none
  | some s => if s = "" then none else some s

/-- `x.getHours() === 0 && x.getMinutes() === 0 && x.getSeconds() === 0`
(server.js lines 56-57); milliseconds are not inspected by the source. -/
def midnightHMS (t tz : Int) : Bool :=
  getHours t tz == 0 && getMinutes t tz == 0 && getSeconds t tz == 0

/-- The `isAllDay` expression of server.js lines 55-57, including its
exception behaviour: if `start` is not a `Date` the result is `false`; else
if `start.dateOnly === true` the result is `true`; else if `start` is not at
local midnight the `&&` short-circuits to `false`; else `end.getHours()` is
evaluated, which throws a TypeError when `end` is not a `Date`. -/
def isAllDayOf (s e : ICalValue) (tz : Int) : Except Unit Bool :=
  match s with
  | .str _ => .ok false
  | .date ts dOnly =>
    if dOnly then .ok true
    else if midnightHMS ts tz then
      match e with
      | .date te _ => .ok (midnightHMS te tz)
      | .str _ => .error ()
    else .ok false

/-- The record pushed by server.js lines 72-80 (`start`/`end` as epoch ms in
place of the ISO strings, which round-trip through `new Date(...)`). -/
structure Event where
  id : String
  title : String
  start : Int
  end_ : Int
  allDay : Bool
  location : Option String
  description : Option String
deriving DecidableEq, Repr

/-- The heuristic `isAllDay` value for a raw event, with `end` defaulted
(`event.end || event.start`, server.js line 52). -/
def heurOf (ev : RawEvent) (tz : Int) : Except Unit Bool :=
  isAllDayOf ev.start (ev.end_.getD ev.start) tz

/-- Total projection of `heurOf`; used only to state theorems about runs in
which the heuristic did evaluate (it then agrees with the `.ok` value). -/
def heurOfD (ev : RawEvent) (tz : Int) : Bool :=
  match heurOf ev tz with
  | .ok b => b
  | .error _ => false

/-- The object pushed for one surviving raw event (server.js lines 72-80);
`allDay: isAllDay || event.datetype === 'date'` (line 77). -/
def mkEvent (key : String) (ev : RawEvent) (heur : Bool) : Event :=
  { id := jsOr ev.uid key
    title := jsOr ev.summary "Untitled Event"
    start := ev.start.instant
    end_ := (ev.end_.getD ev.start).instant
    allDay := heur || ev.datetype == some "date"
    location := jsOpt ev.location
    description := jsOpt ev.description }

/-- `mkEvent` with the heuristic evaluated totally, for stating the
filter/map characterisation of the event loop. -/
def mkEventT (tz : Int) (p : String × RawEvent) : Event :=
  mkEvent p.1 p.2 (heurOfD p.2 tz)

/-- The `for (const key in data)` loop of server.js lines 47-81: skip
non-VEVENT components; evaluate the all-day heuristic (which may throw);
drop events with `start < startOfToday || start > thirtyDaysFromNow`
(line 68, `thirtyDaysFromNow = nowDate.getTime() + 30*24*60*60*1000`);
push the mapped record.  A thrown TypeError aborts the whole loop, which the
enclosing `try` turns into a failed fetch. `tNorm` is the instant `nowDate`
observed after the awaited fetch resolved. -/
def processEvents (tz tNorm : Int) : List (String × RawEvent) → Except Unit (List Event)
  | [] => .ok []
  | (key, ev) :: rest =>
    if ev.type = "VEVENT" then
      match heurOf ev tz with
      | .error e => .error e
      | .ok heur =>
        if ev.start.instant < startOfToday tNorm tz ∨ ev.start.instant > tNorm + 30 * dayMs then
          processEvents tz tNorm rest
        else
          match processEvents tz tNorm rest with
          | .error e => .error e
          | .ok restEvents => .ok (mkEvent key ev heur :: restEvents)
    else
      processEvents tz tNorm rest

/-- The comparator key order of `events.sort((a, b) => new Date(a.start).getTime()
- new Date(b.start).getTime())` (server.js line 84). -/
def startLE (a b : Event) : Prop := a.start ≤ b.start

instance : DecidableRel startLE := fun a b => Int.decLe a.start b.start

instance : IsTotal Event startLE := ⟨fun a b => Int.le_total a.start b.start⟩

instance : IsTrans Event startLE := ⟨fun _ _ _ h h₂ => le_trans h h₂⟩

/-- The sort of server.js line 84.  `Array.prototype.sort` is stable
(ES2019), and a stable sort by a total key order is unique as a function, so
it is modelled by insertion sort on the key order. -/
def sortEvents (l : List Event) : List Event := List.insertionSort startLE l

/-- The whole normalization step inside the `try` block: the event loop
followed by the sort (server.js lines 41-84). -/
def normalize (tz tNorm : Int) (raw : List (String × RawEvent)) : Except Unit (List Event) :=
  match processEvents tz tNorm raw with
  | .error e => .error e
  | .ok evs => .ok (sortEvents evs)

/-- The `eventsCache` object (server.js lines 16-20); `lastUpdated` is an
ISO timestamp or `null`, modelled as `Option Int`. -/
structure EventsPayload where
  events : List Event
  lastUpdated : Option Int
  isStale : Bool
deriving DecidableEq, Repr

/-- The module-level mutable server state: `eventsCache` and
`lastFetchTime` (server.js lines 16-21). -/
structure ServerState where
  eventsCache : EventsPayload
  lastFetchTime : Int
deriving DecidableEq, Repr

/-- The state at process start (server.js lines 16-21). -/
def initialState : ServerState := ⟨⟨[], none, false⟩, 0⟩

/-- The configuration read once at startup: `GOOGLE_ICAL_URL`
(server.js line 12), constant for the lifetime of the process. -/
structure Config where
  url : Option String
deriving DecidableEq, Repr

/-- `CACHE_DURATION = 60 * 60 * 1000` (server.js line 22). -/
def CACHE_DURATION : Int := 3600000

/-- The freshness test of server.js line 33:
`eventsCache.lastUpdated && (now - lastFetchTime) < CACHE_DURATION`
(an ISO string is always truthy, `null` is falsy). -/
def cacheFresh (st : ServerState) (now : Int) : Bool :=
  st.eventsCache.lastUpdated.isSome && decide (now - st.lastFetchTime < CACHE_DURATION)

/-- Outcome of the synchronous head of `fetchAndParseICS` (server.js lines
25-35, everything before the awaited `ical.async.fromURL` on line 39):
either an early return, or the decision to start a network fetch. -/
inductive Phase1Result where
  | done (r : EventsPayload)
  | startFetch
deriving DecidableEq, Repr

/-- The synchronous head of `fetchAndParseICS`: the missing-URL early return
(lines 25-28) and the fresh-cache early return (lines 33-35).  It performs no
mutation — the source writes `eventsCache`/`lastFetchTime` only after the
awaited fetch. `now` is `Date.now()` at call time (line 30, also the
timestamp of the line-27 placeholder). -/
def phase1 (cfg : Config) (st : ServerState) (forceRefresh : Bool) (now : Int) : Phase1Result :=
  match cfg.url with
  | none => .done ⟨[], some now, false⟩
  | some _ =>
    if !forceRefresh && cacheFresh st now then .done st.eventsCache
    else .startFetch

/-- The `catch` block (server.js lines 96-105): serve a stale copy of the
cache if a prior value exists, else an empty stale placeholder; the stored
state is not touched. `tNorm` stands for the `new Date()` taken there. -/
def catchBlock (st : ServerState) (tNorm : Int) : EventsPayload × ServerState :=
  if st.eventsCache.lastUpdated.isSome then ({ st.eventsCache with isStale := true }, st)
  else (⟨[], some tNorm, true⟩, st)

/-- The continuation after the awaited fetch (server.js lines 37-105).
`outcome` is what `ical.async.fromURL` produced: `none` models a rejected
promise (network error / timeout); `some raw` the parsed component map in
iteration order.  On success the cache is replaced and `lastFetchTime` is
set to `now` — the `Date.now()` of line 30, not the completion time.  A
parse-time throw is caught by the same `catch`. -/
def phase2 (st : ServerState) (now tNorm tz : Int)
    (outcome : Option (List (String × RawEvent))) : EventsPayload × ServerState :=
  match outcome with
  | none => catchBlock st tNorm
  | some raw =>
    match normalize tz tNorm raw with
    | .error _ => catchBlock st tNorm
    | .ok sorted => (⟨sorted, some tNorm, false⟩, ⟨⟨sorted, some tNorm, false⟩, now⟩)

/-- `fetchAndParseICS(forceRefresh)` (server.js lines 24-106) as a function
of the explicit state and of the fetch outcome.  Result: the returned
payload, the state after the call, and whether the adapter
(`ical.async.fromURL`) was invoked.  The function is total: every failure
path returns a value (the source wraps everything in `try`/`catch`). -/
def fetchAndParseICS (cfg : Config) (st : ServerState) (forceRefresh : Bool) (now : Int)
    (outcome : Option (List (String × RawEvent))) (tNorm tz : Int) :
    EventsPayload × ServerState × Bool :=
  match phase1 cfg st forceRefresh now with
  | .done r => (r, st, false)
  | .startFetch =>
    let pr := phase2 st now tNorm tz outcome
    (pr.1, pr.2, true)

/-- Whether a given fetch outcome lands in the `catch` block: the promise
rejected, or normalization threw. -/
def fetchFailed (tz tNorm : Int) (outcome : Option (List (String × RawEvent))) : Bool :=
  match outcome with
  | none => true
  | some raw =>
    match processEvents tz tNorm raw with
    | .error _ => true
    | .ok _ => false

/-- Whether one call's synchronous head decides to start a network fetch. -/
def startsFetch (cfg : Config) (st : ServerState) (forceRefresh : Bool) (now : Int) : Bool :=
  match phase1 cfg st forceRefresh now with
  | .done _ => false
  | .startFetch => true

/-- Adapter invocations issued by a batch of calls whose synchronous heads
all run before any outstanding fetch settles.  Because the head performs no
mutation and the source is single-threaded with awaits only at the fetch,
every head observes the same state `st`; each call is a `(forceRefresh, now)`
pair. -/
def concurrentInvocations (cfg : Config) (st : ServerState) (calls : List (Bool × Int)) : Nat :=
  (calls.filter (fun c => startsFetch cfg st c.1 c.2)).length

/-- The client-side localStorage freshness check of `AppointmentsList.tsx`
(`cacheAge = cached ? now - cached.cachedAt : Infinity; if (cacheAge >
CACHE_DURATION) fetch...`) and the identical pattern in
`WeatherDisplay.tsx`; `d` is the per-feed duration (events 3600000 ms,
weather 600000 ms). -/
def clientShouldFetch (d : Int) (cachedAt : Option Int) (now : Int) : Bool :=
  match cachedAt with
  | none => true
  | some t => decide (now - t > d)

/-- Client events-cache duration (`AppointmentsList.tsx`). -/
def CLIENT_EVENTS_DURATION : Int := 3600000

/-- Client weather-cache duration (`WeatherDisplay.tsx`). -/
def CLIENT_WEATHER_DURATION : Int := 600000

/-! Concrete fixtures used by witnesses and counterexamples. -/

/-- A configuration with a feed URL set. -/
def cfg0 : Config := ⟨some "https://example.com/basic.ics"⟩

/-- A configuration with no feed URL. -/
def cfgNone : Config := ⟨none⟩

/-- A sample cached event. -/
def sampleEvent : Event :=
  ⟨"uid1", "Dentist", 86400000, 90000000, false, none, none⟩

/-- State after a successful fetch at time 0 (cache populated). -/
def stWarm : ServerState := ⟨⟨[sampleEvent], some 0, false⟩, 0⟩

/-- State after a successful fetch at time 0 with an empty event list. -/
def stWarmEmpty : ServerState := ⟨⟨[], some 0, false⟩, 0⟩

/-- The spec's normalizer-window example feed: events at `today - 1 day`,
`today`, `today + 15 days`, `today + 31 days`, for a normalization instant
of day 100 at 01:00 UTC (tz = 0), i.e. startOfToday = 8640000000. -/
def rawC6 : List (String × RawEvent) :=
  [("p1", { type := "VEVENT", uid := some "y", summary := some "Yesterday",
            start := .date 8553600000 false }),
   ("p2", { type := "VEVENT", uid := some "t", summary := some "Today",
            start := .date 8640000000 false }),
   ("p3", { type := "VEVENT", uid := some "f", summary := some "Plus15",
            start := .date 9936000000 false }),
   ("p4", { type := "VEVENT", uid := some "x", summary := some "Plus31",
            start := .date 11318400000 false })]

/-- Events surviving the window filter on `rawC6`: exactly `today` and
`today + 15 days` (both at local midnight, hence all-day). -/
def evC6 : List Event :=
  [⟨"t", "Today", 8640000000, 8640000000, true, none, none⟩,
   ⟨"f", "Plus15", 9936000000, 9936000000, true, none, none⟩]

/-- An ordering example feed: starts (ms) 5000, 3000, 4000, 4000 — the two
4000 entries share a start, probing stability. -/
def rawC7 : List (String × RawEvent) :=
  [("k1", { type := "VEVENT", uid := some "a", summary := some "A", start := .date 5000 false }),
   ("k2", { type := "VEVENT", uid := some "b", summary := some "B", start := .date 3000 false }),
   ("k3", { type := "VEVENT", uid := some "c", summary := some "C", start := .date 4000 false }),
   ("k4", { type := "VEVENT", uid := some "d", summary := some "D", start := .date 4000 false })]

/-- The pre-sort (feed-order) records of `rawC7`. -/
def evsPreC7 : List Event :=
  [⟨"a", "A", 5000, 5000, false, none, none⟩,
   ⟨"b", "B", 3000, 3000, false, none, none⟩,
   ⟨"c", "C", 4000, 4000, false, none, none⟩,
   ⟨"d", "D", 4000, 4000, false, none, none⟩]

/-- The normalized output for `rawC7`: ascending starts, the tied 4000
records in feed order. -/
def evC7 : List Event :=
  [⟨"b", "B", 3000, 3000, false, none, none⟩,
   ⟨"c", "C", 4000, 4000, false, none, none⟩,
   ⟨"d", "D", 4000, 4000, false, none, none⟩,
   ⟨"a", "A", 5000, 5000, false, none, none⟩]

/-- A timed event whose start and end are both at local midnight. -/
def evMidnight : RawEvent :=
  { type := "VEVENT", start := .date 0 false, end_ := some (.date 0 false) }

/-- A timed event starting at 01:00 local, no date-only markers. -/
def evTimed : RawEvent := { type := "VEVENT", start := .date 3600000 false }

/-- An event carrying node-ical's `dateOnly` marker. -/
def evDateOnly : RawEvent := { type := "VEVENT", start := .date 3600000 true }

/-!  Theorems for the frozen claims. -/

/-- C9: with no feed URL configured, every call returns an empty,
non-stale, non-error payload, performs no network fetch, and leaves the
state unchanged — so the empty result recurs for the process lifetime. -/
theorem c9_missing_url_empty (cfg : Config) (st : ServerState) (forceRefresh : Bool)
    (now : Int) (outcome : Option (List (String × RawEvent))) (tNorm tz : Int)
    (h : cfg.url = none) :
    fetchAndParseICS cfg st forceRefresh now outcome tNorm tz = (⟨[], some now, false⟩, st, false) := by
  simp [fetchAndParseICS, phase1, h]

/-- Witness for C9 at a concrete unconfigured instance. -/
theorem c9_missing_url_empty_witness :
    fetchAndParseICS cfgNone stWarm true 5 none 5 0 = (⟨[], some 5, false⟩, stWarm, false) :=
  c9_missing_url_empty cfgNone stWarm true 5 none 5 0 rfl

/-- C4: with a URL configured, a forced call always invokes the adapter,
for every cache state and every `now`. -/
theorem c4_force_bypass (cfg : Config) (u : String) (st : ServerState) (now : Int)
    (outcome : Option (List (String × RawEvent))) (tNorm tz : Int)
    (h : cfg.url = some u) :
    (fetchAndParseICS cfg st true now outcome tNorm tz).2.2 = true := by
  simp [fetchAndParseICS, phase1, h]

/-- Witness for C4: a forced call fetches even though the cache is fresh. -/
theorem c4_force_bypass_witness :
    (fetchAndParseICS cfg0 stWarm true 5 none 5 0).2.2 = true :=
  c4_force_bypass cfg0 "https://example.com/basic.ics" stWarm 5 none 5 0 rfl

/-- C3: inside the freshness window after a successful fetch, a non-forced
call performs no fetch and returns the stored cache value itself (state and
staleness flag untouched). -/
theorem c3_freshness_window (cfg : Config) (u : String) (st : ServerState) (now : Int)
    (outcome : Option (List (String × RawEvent))) (tNorm tz : Int)
    (h : cfg.url = some u) (h1 : st.eventsCache.lastUpdated.isSome = true)
    (h2 : now - st.lastFetchTime < CACHE_DURATION) :
    fetchAndParseICS cfg st false now outcome tNorm tz = (st.eventsCache, st, false) := by
  simp [fetchAndParseICS, phase1, cacheFresh, h, h1, h2]

/-- Witness for C3 at a concrete fresh cache. -/
theorem c3_freshness_window_witness :
    (0 : Int) - stWarm.lastFetchTime < CACHE_DURATION ∧
    fetchAndParseICS cfg0 stWarm false 0 none 0 0 = (stWarm.eventsCache, stWarm, false) :=
  ⟨by decide,
   c3_freshness_window cfg0 "https://example.com/basic.ics" stWarm 0 none 0 0 rfl rfl (by decide)⟩

/-- C2: when an attempted fetch fails (rejected promise or a throw during
parse/normalize), the call still returns a value: a copy of the prior value
with `isStale = true` when one exists, an empty stale placeholder otherwise;
the stored cache entry and the whole state are unmodified. -/
theorem c2_stale_fallback (cfg : Config) (st : ServerState) (forceRefresh : Bool) (now : Int)
    (outcome : Option (List (String × RawEvent))) (tNorm tz : Int)
    (hAtt : (fetchAndParseICS cfg st forceRefresh now outcome tNorm tz).2.2 = true)
    (hFail : fetchFailed tz tNorm outcome = true) :
    (st.eventsCache.lastUpdated.isSome = true →
      (fetchAndParseICS cfg st forceRefresh now outcome tNorm tz).1.events = st.eventsCache.events ∧
      (fetchAndParseICS cfg st forceRefresh now outcome tNorm tz).1.lastUpdated = st.eventsCache.lastUpdated ∧
      (fetchAndParseICS cfg st forceRefresh now outcome tNorm tz).1.isStale = true) ∧
    (st.eventsCache.lastUpdated.isSome = false →
      (fetchAndParseICS cfg st forceRefresh now outcome tNorm tz).1.events = [] ∧
      (fetchAndParseICS cfg st forceRefresh now outcome tNorm tz).1.isStale = true) ∧
    (fetchAndParseICS cfg st forceRefresh now outcome tNorm tz).2.1 = st := by
  cases hp : phase1 cfg st forceRefresh now with
  | done r => simp [fetchAndParseICS, hp] at hAtt
  | startFetch =>
    have hcatch : phase2 st now tNorm tz outcome = catchBlock st tNorm := by
      cases outcome with
      | none => rfl
      | some raw =>
        cases hpe : processEvents tz tNorm raw with
        | error e => simp [phase2, normalize, hpe]
        | ok evs => simp [fetchFailed, hpe] at hFail
    have hres : fetchAndParseICS cfg st forceRefresh now outcome tNorm tz
        = ((catchBlock st tNorm).1, (catchBlock st tNorm).2, true) := by
      simp [fetchAndParseICS, hp, hcatch]
    rw [hres]
    unfold catchBlock
    by_cases hs : st.eventsCache.lastUpdated.isSome = true
    · simp [hs]
    · have hs2 : st.eventsCache.lastUpdated.isSome = false := by simpa using hs
      simp [hs2]

/-- Witness for C2: a forced call whose fetch fails while a prior value
exists. -/
theorem c2_stale_fallback_witness :
    (fetchAndParseICS cfg0 stWarm true 10 none 10 0).1.events = stWarm.eventsCache.events ∧
    (fetchAndParseICS cfg0 stWarm true 10 none 10 0).1.isStale = true ∧
    (fetchAndParseICS cfg0 stWarm true 10 none 10 0).2.1 = stWarm :=
  ⟨((c2_stale_fallback cfg0 stWarm true 10 none 10 0 (by decide) (by decide)).1 (by decide)).1,
   ((c2_stale_fallback cfg0 stWarm true 10 none 10 0 (by decide) (by decide)).1 (by decide)).2.2,
   (c2_stale_fallback cfg0 stWarm true 10 none 10 0 (by decide) (by decide)).2.2⟩

/-- C5 counterexample: at the exact boundary `now - cachedAt = cacheDuration`
the client-side expiry test (`cacheAge > CACHE_DURATION`) is false — the
cache still counts as fresh and no refresh is issued, contradicting the
claimed `>=` semantics for every feed key. -/
theorem c5_boundary_counterexample :
    clientShouldFetch CLIENT_EVENTS_DURATION (some 0) 3600000 = false ∧
    (3600000 : Int) - 0 ≥ CLIENT_EVENTS_DURATION := by decide

/-- C5 amended: the server-side test is expired iff `lastUpdated` is absent
or `now - lastFetchTime >= CACHE_DURATION`, and at the exact boundary a
refresh is attempted; the client-side localStorage tests (events and
weather) instead fetch iff the entry is absent or `now - cachedAt` is
strictly greater than the duration, so the boundary counts as fresh there. -/
theorem c5_expiry_tests :
    (∀ (st : ServerState) (now : Int),
      cacheFresh st now = false ↔
        (st.eventsCache.lastUpdated = none ∨ CACHE_DURATION ≤ now - st.lastFetchTime)) ∧
    (∀ (cfg : Config) (u : String) (st : ServerState) (now : Int)
        (outcome : Option (List (String × RawEvent))) (tNorm tz : Int),
      cfg.url = some u → now - st.lastFetchTime = CACHE_DURATION →
      (fetchAndParseICS cfg st false now outcome tNorm tz).2.2 = true) ∧
    (∀ (d now : Int), clientShouldFetch d none now = true) ∧
    (∀ (d t now : Int), clientShouldFetch d (some t) now = true ↔ d < now - t) := by
  refine ⟨?_, ?_, ?_, ?_⟩
  · intro st now
    unfold cacheFresh
    cases h : st.eventsCache.lastUpdated with
    | none => simp [h]
    | some v => simp [h]
  · intro cfg u st now outcome tNorm tz hu hb
    have hfresh : cacheFresh st now = false := by
      unfold cacheFresh
      have : decide (now - st.lastFetchTime < CACHE_DURATION) = false := by
        simp; omega
      simp [this]
    simp [fetchAndParseICS, phase1, hu, hfresh]
  · intro d now; rfl
  · intro d t now; unfold clientShouldFetch; simp

/-- Witness for the amended C5 at concrete instances, including a boundary
refresh on the server side. -/
theorem c5_expiry_tests_witness :
    (cacheFresh initialState 0 = false ↔
      (initialState.eventsCache.lastUpdated = none ∨ CACHE_DURATION ≤ 0 - initialState.lastFetchTime)) ∧
    (fetchAndParseICS cfg0 stWarm false 3600000 none 3600000 0).2.2 = true ∧
    clientShouldFetch CLIENT_EVENTS_DURATION none 5 = true ∧
    (clientShouldFetch CLIENT_WEATHER_DURATION (some 0) 600001 = true ↔
      CLIENT_WEATHER_DURATION < 600001 - 0) :=
  ⟨c5_expiry_tests.1 initialState 0,
   c5_expiry_tests.2.1 cfg0 "https://example.com/basic.ics" stWarm 3600000 none 3600000 0 rfl
     (by decide),
   c5_expiry_tests.2.2.1 CLIENT_EVENTS_DURATION 5,
   c5_expiry_tests.2.2.2 CLIENT_WEATHER_DURATION 0 600001⟩

/-- C1 counterexample: with an expired (here: never-filled) cache, a first
call starts a fetch, and a second call issued while that fetch is in flight
observes the unchanged state — the source tracks no in-flight fetch — and
starts a second adapter invocation: two concurrent calls yield 2
invocations, not the claimed exactly one. -/
theorem c1_coalescing_counterexample :
    startsFetch cfg0 initialState false 0 = true ∧
    concurrentInvocations cfg0 initialState [(false, 0), (false, 0)] = 2 ∧
    (2 : Nat) ≠ 1 := by decide

/-- C1 amended: calls issued while a fetch is in flight do not coalesce:
every concurrent call that is forced or sees an expired cache performs its
own adapter invocation, so N such calls yield N invocations, each caller
resolving with its own fetch's outcome. -/
theorem c1_no_coalescing (cfg : Config) (u : String) (st : ServerState)
    (calls : List (Bool × Int)) (hu : cfg.url = some u)
    (h : ∀ c ∈ calls, c.1 = true ∨ cacheFresh st c.2 = false) :
    concurrentInvocations cfg st calls = calls.length := by
  unfold concurrentInvocations
  have hall : calls.filter (fun c => startsFetch cfg st c.1 c.2) = calls := by
    rw [List.filter_eq_self]
    intro c hc
    rcases h c hc with hf | hcf
    · simp [startsFetch, phase1, hu, hf]
    · simp [startsFetch, phase1, hu, hcf]
  rw [hall]

/-- Witness for the amended C1: one forced and one expired-cache call while
a fetch is in flight give two invocations. -/
theorem c1_no_coalescing_witness :
    concurrentInvocations cfg0 initialState [(false, 5), (true, 5)] = 2 :=
  c1_no_coalescing cfg0 "https://example.com/basic.ics" initialState [(false, 5), (true, 5)]
    rfl (by decide)

/-- C10 counterexample: a forced refresh at t = 10 fails while the cache
(successfully fetched at t = 0) is still fresh; the state is unchanged, and
a subsequent non-forced call at t = 20 — before any next successful fetch
and right after the failure — does NOT attempt the network fetch, refuting
"every subsequent call ... attempts the network fetch again". -/
theorem c10_forced_failure_counterexample :
    (fetchAndParseICS cfg0 stWarm true 10 none 10 0).2.2 = true ∧
    (fetchAndParseICS cfg0 stWarm true 10 none 10 0).1.isStale = true ∧
    (fetchAndParseICS cfg0 stWarm true 10 none 10 0).2.1 = stWarm ∧
    (fetchAndParseICS cfg0 stWarm false 20 none 20 0).2.2 = false := by decide

/-- Helper: a failing outcome sends `phase2` to the `catch` block. -/
theorem phase2_eq_catch_of_failed (st : ServerState) (now tNorm tz : Int)
    (outcome : Option (List (String × RawEvent)))
    (hFail : fetchFailed tz tNorm outcome = true) :
    phase2 st now tNorm tz outcome = catchBlock st tNorm := by
  cases outcome with
  | none => rfl
  | some raw =>
    cases hpe : processEvents tz tNorm raw with
    | error e => simp [phase2, normalize, hpe]
    | ok evs => simp [fetchFailed, hpe] at hFail

/-- Helper: the `catch` block never mutates the stored state. -/
theorem catchBlock_state (st : ServerState) (tNorm : Int) :
    (catchBlock st tNorm).2 = st := by
  unfold catchBlock
  by_cases hs : st.eventsCache.lastUpdated.isSome = true <;> simp [hs]

/-- Helper: any call whose fetch outcome fails leaves the state unchanged. -/
theorem state_unchanged_of_failed (cfg : Config) (st : ServerState) (forceRefresh : Bool)
    (now : Int) (outcome : Option (List (String × RawEvent))) (tNorm tz : Int)
    (hFail : fetchFailed tz tNorm outcome = true) :
    (fetchAndParseICS cfg st forceRefresh now outcome tNorm tz).2.1 = st := by
  cases hp : phase1 cfg st forceRefresh now with
  | done r => simp [fetchAndParseICS, hp]
  | startFetch =>
    simp [fetchAndParseICS, hp, phase2_eq_catch_of_failed st now tNorm tz outcome hFail,
      catchBlock_state]

/-- C10 amended: a failed fetch never changes the state (`lastFetchTime` and
the cache entry keep their values), any call that does change the state had
a successful fetch, and after the state was expired at time `now` every
non-forced call at any `now2 >= now` attempts the fetch — so a failure of an
expiry-triggered refresh never suppresses later fetch attempts, while a
failed forced refresh inside a still-fresh window does not force later
calls to fetch. -/
theorem c10_failure_keeps_clock :
    (∀ (cfg : Config) (st : ServerState) (forceRefresh : Bool) (now : Int)
        (outcome : Option (List (String × RawEvent))) (tNorm tz : Int),
      fetchFailed tz tNorm outcome = true →
      (fetchAndParseICS cfg st forceRefresh now outcome tNorm tz).2.1 = st) ∧
    (∀ (cfg : Config) (st : ServerState) (forceRefresh : Bool) (now : Int)
        (outcome : Option (List (String × RawEvent))) (tNorm tz : Int),
      (fetchAndParseICS cfg st forceRefresh now outcome tNorm tz).2.1 ≠ st →
      fetchFailed tz tNorm outcome = false ∧
      (fetchAndParseICS cfg st forceRefresh now outcome tNorm tz).2.2 = true) ∧
    (∀ (cfg : Config) (u : String) (st : ServerState) (now now2 : Int)
        (outcome : Option (List (String × RawEvent))) (tNorm tz : Int),
      cfg.url = some u → cacheFresh st now = false → now ≤ now2 →
      (fetchAndParseICS cfg st false now2 outcome tNorm tz).2.2 = true) := by
  refine ⟨?_, ?_, ?_⟩
  · exact state_unchanged_of_failed
  · intro cfg st forceRefresh now outcome tNorm tz hne
    constructor
    · by_cases hf : fetchFailed tz tNorm outcome = true
      · exact absurd (state_unchanged_of_failed cfg st forceRefresh now outcome tNorm tz hf) hne
      · simpa using hf
    · cases hp : phase1 cfg st forceRefresh now with
      | done r => exact absurd (by simp [fetchAndParseICS, hp]) hne
      | startFetch => simp [fetchAndParseICS, hp]
  · intro cfg u st now now2 outcome tNorm tz hu hcf hle
    have hfresh2 : cacheFresh st now2 = false := by
      unfold cacheFresh at hcf ⊢
      cases hsome : st.eventsCache.lastUpdated.isSome with
      | false => simp [hsome]
      | true =>
        rw [hsome] at hcf
        simp at hcf
        simp
        omega
    simp [fetchAndParseICS, phase1, hu, hfresh2]

/-- Witness for the amended C10: the failed forced refresh leaves the warm
state intact, and an expired state still triggers a fetch one hour later. -/
theorem c10_failure_keeps_clock_witness :
    (fetchAndParseICS cfg0 stWarm true 10 none 10 0).2.1 = stWarm ∧
    (fetchAndParseICS cfg0 stWarmEmpty false 7200000 none 7200000 0).2.2 = true :=
  ⟨c10_failure_keeps_clock.1 cfg0 stWarm true 10 none 10 0 (by decide),
   c10_failure_keeps_clock.2.2 cfg0 "https://example.com/basic.ics" stWarmEmpty 3600000 7200000
     none 7200000 0 rfl (by decide) (by decide)⟩

/-- Helper: filtering on a fixed start value commutes with ordered
insertion — the inserted element lands before every element with an equal
start, after every element with a smaller one. -/
theorem filter_orderedInsert (x : Event) (l : List Event) (v : Int) :
    (List.orderedInsert startLE x l).filter (fun e => e.start == v) =
      if x.start == v then x :: l.filter (fun e => e.start == v)
      else l.filter (fun e => e.start == v) := by
  induction l with
  | nil =>
    by_cases hxv : (x.start == v) = true <;>
      simp [List.orderedInsert, List.filter_cons, hxv]
  | cons b l ih =>
    by_cases hle : startLE x b
    · rw [List.orderedInsert, if_pos hle]
      by_cases hxv : (x.start == v) = true <;>
        simp [List.filter_cons, hxv]
    · rw [List.orderedInsert, if_neg hle]
      rw [List.filter_cons, ih]
      have hbx : b.start < x.start := by
        simp [startLE] at hle
        omega
      by_cases hxv : (x.start == v) = true
      · have hx2 : x.start = v := by simpa using hxv
        have hbv : (b.start == v) = false := by
          simp
          omega
        simp [hxv, hbv, List.filter_cons]
      · have hx2 : (x.start == v) = false := by simpa using hxv
        by_cases hbv : (b.start == v) = true <;>
          simp [hx2, hbv, List.filter_cons]

/-- Helper: the sort of the event list is stable — for every start value,
the records carrying that start appear in the output in their pre-sort
order. -/
theorem filter_sortEvents (l : List Event) (v : Int) :
    (sortEvents l).filter (fun e => e.start == v) = l.filter (fun e => e.start == v) := by
  induction l with
  | nil => rfl
  | cons x l ih =>
    show (List.orderedInsert startLE x (List.insertionSort startLE l)).filter _ = _
    rw [filter_orderedInsert]
    have ih2 : (List.insertionSort startLE l).filter (fun e => e.start == v)
        = l.filter (fun e => e.start == v) := ih
    by_cases hxv : (x.start == v) = true <;>
      simp [hxv, ih2, List.filter_cons]

/-- C7: a normalized output list is ascending in `start` at every adjacent
pair, and records sharing a `start` keep the relative order they had in the
pre-sort (feed-order) list — the sort is stable. -/
theorem c7_sorted_stable (tz tNorm : Int) (raw : List (String × RawEvent)) (out : List Event)
    (h : normalize tz tNorm raw = .ok out) :
    (∀ (i : Nat) (hi : i + 1 < out.length),
      (out.get ⟨i, Nat.lt_of_succ_lt hi⟩).start ≤ (out.get ⟨i + 1, hi⟩).start) ∧
    (∀ evs, processEvents tz tNorm raw = .ok evs →
      ∀ v : Int, out.filter (fun e => e.start == v) = evs.filter (fun e => e.start == v)) := by
  unfold normalize at h
  cases hpe : processEvents tz tNorm raw with
  | error e => rw [hpe] at h; exact absurd h (by simp)
  | ok evs0 =>
    rw [hpe] at h
    have hout : out = sortEvents evs0 := by
      injection h with h2
      exact h2.symm
    subst hout
    constructor
    · intro i hi
      have hs : List.Sorted startLE (sortEvents evs0) :=
        List.sorted_insertionSort startLE evs0
      exact hs.rel_get_of_lt (by simp [Fin.lt_def])
    · intro evs hevs v
      have heq : evs0 = evs := Except.ok.inj hevs
      rw [← heq]
      exact filter_sortEvents evs0 v

/-- Witness for C7 on the tie-carrying example feed: output ascending at an
adjacent pair, and the records with start 4000 keep their feed order. -/
theorem c7_sorted_stable_witness :
    (evC7.get ⟨1, by decide⟩).start ≤ (evC7.get ⟨2, by decide⟩).start ∧
    evC7.filter (fun e => e.start == 4000) = evsPreC7.filter (fun e => e.start == 4000) :=
  ⟨(c7_sorted_stable 0 0 rawC7 evC7 rfl).1 1 (by decide),
   (c7_sorted_stable 0 0 rawC7 evC7 rfl).2 evsPreC7 rfl 4000⟩

/-- Equation helper: a non-VEVENT component is skipped. -/
theorem processEvents_skip (tz tNorm : Int) (key : String) (ev : RawEvent)
    (rest : List (String × RawEvent)) (ht : ¬ ev.type = "VEVENT") :
    processEvents tz tNorm ((key, ev) :: rest) = processEvents tz tNorm rest := by
  rw [processEvents, if_neg ht]

/-- Equation helper: a VEVENT whose all-day evaluation throws aborts the
whole loop. -/
theorem processEvents_vevent_err (tz tNorm : Int) (key : String) (ev : RawEvent)
    (rest : List (String × RawEvent)) (e : Unit) (ht : ev.type = "VEVENT")
    (hh : heurOf ev tz = .error e) :
    processEvents tz tNorm ((key, ev) :: rest) = .error e := by
  rw [processEvents, if_pos ht, hh]

/-- Equation helper: a VEVENT whose all-day evaluation succeeds proceeds to
the window test. -/
theorem processEvents_vevent_ok (tz tNorm : Int) (key : String) (ev : RawEvent)
    (rest : List (String × RawEvent)) (heur : Bool) (ht : ev.type = "VEVENT")
    (hh : heurOf ev tz = .ok heur) :
    processEvents tz tNorm ((key, ev) :: rest) =
      if ev.start.instant < startOfToday tNorm tz ∨ ev.start.instant > tNorm + 30 * dayMs then
        processEvents tz tNorm rest
      else
        match processEvents tz tNorm rest with
        | .error e => .error e
        | .ok restEvents => .ok (mkEvent key ev heur :: restEvents) := by
  rw [processEvents, if_pos ht, hh]

/-- C6: the event loop keeps a VEVENT exactly when
`startOfToday <= start <= now + 30 days`; the surviving events, in feed
order, are the mapped records of exactly the in-window raw VEVENTs. -/
theorem c6_window_filter (tz tNorm : Int) (raw : List (String × RawEvent)) (out : List Event)
    (h : processEvents tz tNorm raw = .ok out) :
    out = (raw.filter (fun p => p.2.type == "VEVENT" &&
        (decide (startOfToday tNorm tz ≤ p.2.start.instant) &&
         decide (p.2.start.instant ≤ tNorm + 30 * dayMs)))).map (mkEventT tz) := by
  induction raw generalizing out with
  | nil =>
    simp [processEvents] at h
    simp [← h]
  | cons p rest ih =>
    obtain ⟨key, ev⟩ := p
    by_cases ht : ev.type = "VEVENT"
    · cases hh : heurOf ev tz with
      | error e =>
        rw [processEvents_vevent_err tz tNorm key ev rest e ht hh] at h
        exact absurd h (by simp)
      | ok heur =>
        by_cases hw : ev.start.instant < startOfToday tNorm tz ∨
            ev.start.instant > tNorm + 30 * dayMs
        · rw [processEvents_vevent_ok tz tNorm key ev rest heur ht hh, if_pos hw] at h
          have hfilt : ((key, ev).2.type == "VEVENT" &&
              (decide (startOfToday tNorm tz ≤ (key, ev).2.start.instant) &&
               decide ((key, ev).2.start.instant ≤ tNorm + 30 * dayMs))) = false := by
            rcases hw with hw | hw
            · have hd : decide (startOfToday tNorm tz ≤ ev.start.instant) = false := by
                simp
                omega
              simp [hd]
            · have hd : decide (ev.start.instant ≤ tNorm + 30 * dayMs) = false := by
                simp
                omega
              simp [hd]
          rw [List.filter_cons, if_neg (by simp [hfilt])]
          exact ih out h
        · rw [processEvents_vevent_ok tz tNorm key ev rest heur ht hh, if_neg hw] at h
          cases hrest : processEvents tz tNorm rest with
          | error e =>
            rw [hrest] at h
            exact absurd h (by simp)
          | ok restEvents =>
            rw [hrest] at h
            have hout : out = mkEvent key ev heur :: restEvents := by
              injection h with h2
              exact h2.symm
            have hfilt : ((key, ev).2.type == "VEVENT" &&
                (decide (startOfToday tNorm tz ≤ (key, ev).2.start.instant) &&
                 decide ((key, ev).2.start.instant ≤ tNorm + 30 * dayMs))) = true := by
              push_neg at hw
              simp [ht]
              omega
            rw [hout, List.filter_cons, if_pos (by simp [hfilt] : _), List.map_cons]
            congr 1
            · simp [mkEventT, heurOfD, hh]
            · exact ih restEvents hrest
    · rw [processEvents_skip tz tNorm key ev rest ht] at h
      have hfilt : ((key, ev).2.type == "VEVENT") = false := by
        simpa using ht
      rw [List.filter_cons, if_neg (by simp [hfilt])]
      exact ih out h

/-- Witness for C6: the spec's four-event feed keeps exactly the events at
`today` and `today + 15 days`. -/
theorem c6_window_filter_witness :
    processEvents 0 8643600000 rawC6 = Except.ok evC6 ∧
    evC6 = (rawC6.filter (fun p => p.2.type == "VEVENT" &&
        (decide (startOfToday 8643600000 0 ≤ p.2.start.instant) &&
         decide (p.2.start.instant ≤ 8643600000 + 30 * dayMs)))).map (mkEventT 0) :=
  ⟨rfl, c6_window_filter 0 8643600000 rawC6 evC6 rfl⟩

/-- C8: the `allDay` flag of a produced record is true whenever start and
end are both `Date`s at local-midnight time-of-day (the heuristic) or the
source value carries the explicit date-only marker; it is false for a
non-midnight start carrying no date-only marker and no `datetype: 'date'`. -/
theorem c8_all_day :
    (∀ (tz : Int) (key : String) (ev : RawEvent) (ts te : Int) (dS dE : Bool),
      ev.start = .date ts dS → ev.end_.getD ev.start = .date te dE →
      midnightHMS ts tz = true → midnightHMS te tz = true →
      (mkEventT tz (key, ev)).allDay = true) ∧
    (∀ (tz : Int) (key : String) (ev : RawEvent) (ts : Int),
      ev.start = .date ts false → midnightHMS ts tz = false →
      ev.datetype ≠ some "date" →
      (mkEventT tz (key, ev)).allDay = false) ∧
    (∀ (tz : Int) (key : String) (ev : RawEvent) (ts : Int),
      ev.start = .date ts true →
      (mkEventT tz (key, ev)).allDay = true) := by
  refine ⟨?_, ?_, ?_⟩
  · intro tz key ev ts te dS dE hs he hms hme
    have hh : heurOf ev tz = .ok true := by
      unfold heurOf
      rw [he, hs]
      cases dS with
      | true => simp [isAllDayOf]
      | false => simp [isAllDayOf, hms, hme]
    simp [mkEventT, mkEvent, heurOfD, hh]
  · intro tz key ev ts hs hms hne
    have hh : heurOf ev tz = .ok false := by
      unfold heurOf isAllDayOf
      rw [hs]
      simp [hms]
    have hd : (ev.datetype == some "date") = false := beq_eq_false_iff_ne.mpr hne
    simp [mkEventT, mkEvent, heurOfD, hh, hd]
  · intro tz key ev ts hs
    have hh : heurOf ev tz = .ok true := by
      unfold heurOf isAllDayOf
      rw [hs]
      simp
    simp [mkEventT, mkEvent, heurOfD, hh]

/-- Witness for C8: a midnight-to-midnight event is all-day, a 01:00 event
with no markers is not, a marker-carrying event is all-day regardless. -/
theorem c8_all_day_witness :
    (mkEventT 0 ("k", evMidnight)).allDay = true ∧
    (mkEventT 0 ("k", evTimed)).allDay = false ∧
    (mkEventT 0 ("k", evDateOnly)).allDay = true :=
  ⟨c8_all_day.1 0 "k" evMidnight 0 0 false false rfl rfl (by decide) (by decide),
   c8_all_day.2.1 0 "k" evTimed 3600000 rfl (by decide) (by decide),
   c8_all_day.2.2 0 "k" evDateOnly 3600000 rfl⟩

end GlanceBoard
